import Mathlib

/-!
Verification of the well-bot Emotion Recognition ingest service.

Shallow embedding of the python sources under `src/`:
  * `app/emotion_recognition.py`  — 9-class → 4-class emotion mapping
  * `app/processing_pipeline.py`  — `analyze_full` result shape
  * `app/models.py`               — `ChunkResult`, `AggregatedResult` (pydantic)
  * `app/session_manager.py`      — session detection / result storage
  * `app/queue_manager.py`        — queue, worker step, result logging
  * `app/api.py`                  — `POST /ser/analyze-speech` handler
  * `app/aggregator.py`           — `_aggregate_session`
  * `app/ser_result_logger.py`    — in-memory result log reads
  * `app/main.py`                 — startup sequence, synthetic-generator tick
  * `simulation/signal_generator.py` — synthetic signal generation

Timestamps are modelled as integers (seconds); confidences as rationals.
Python dicts are modelled as association lists with dict semantics
(update-in-place keeps position, fresh keys append at the end), which
matches CPython insertion-ordered iteration.
-/

namespace SER

/-- The four downstream emotion classes (fusion contract). -/
def fourClassLabels : List String := ["Angry", "Sad", "Happy", "Fear"]

/-- python `str.lower()`, written over the character list so that it
evaluates inside the kernel. -/
def pyLower (s : String) : String := String.mk (s.data.map Char.toLower)

/-- `EMOTION_9_TO_4_MAPPING` lookup from `app/emotion_recognition.py`:
`_map_to_4class` lowercases its input and returns the mapped 4-class label,
or `None` for neutral / other / unknown (and any unlisted label). -/
def mapTo4Class (emotion9 : String) : Option String :=
  match pyLower emotion9 with
  | "angry" => some "Angry"
  | "happy" => some "Happy"
  | "sad" => some "Sad"
  | "fearful" => some "Fear"
  | "disgusted" => some "Angry"
  | "surprised" => some "Fear"
  | _ => none

/-- `ChunkResult` from `app/models.py`.  pydantic enforces `emotion : str`
(a `None` emotion raises `ValidationError` at construction, see
`mkChunkResult`).  Optional fields keep their `Optional[...]` types. -/
structure ChunkResult where
  timestamp : Int
  emotion : String
  emotion_confidence : Rat
  transcript : Option String := none
  language : Option String := none
  sentiment : Option String := none
  sentiment_confidence : Option Rat := none
  deriving Repr, DecidableEq

/-- The dictionary returned by `analyze_full` in
`app/processing_pipeline.py`: `emotion` can be `None` (dropped chunk),
the other fields are always present strings / floats. -/
structure PipelineResult where
  emotion : Option String
  emotion_confidence : Rat
  transcript : String
  language : String
  sentiment : String
  sentiment_confidence : Rat
  deriving Repr, DecidableEq

/-- Outcome of the external ML collaborators for one chunk, used to drive
`analyzeFull`.  `validationOk` is `validate_audio`; `serOk` is whether
`predict_emotion` produced a top label (its failure paths return
`(None, 0.0)`); `emotion9` is the raw emotion2vec 9-class label. -/
structure MLOutcome where
  validationOk : Bool
  serOk : Bool
  emotion9 : String
  confidence : Rat
  transcript : String
  language : String
  sentiment : String
  sentimentConfidence : Rat
  deriving Repr, DecidableEq

/-- `analyze_full` from `app/processing_pipeline.py`.  A failed
`validate_audio` short-circuits to the literal `"Error"` record; otherwise
the emotion field is `predict_emotion`'s output, i.e. `_map_to_4class`
of the model's 9-class label (or `None` when recognition failed). -/
def analyzeFull (m : MLOutcome) : PipelineResult :=
  if m.validationOk = false then
    { emotion := some "Error"
      emotion_confidence := 0
      transcript := "Audio validation failed"
      language := "N/A"
      sentiment := "N/A"
      sentiment_confidence := 0 }
  else
    { emotion := if m.serOk then mapTo4Class m.emotion9 else none
      emotion_confidence := if m.serOk then m.confidence else 0
      transcript := m.transcript
      language := m.language
      sentiment := m.sentiment
      sentiment_confidence := m.sentimentConfidence }

/-- Constructing `ChunkResult(...)` in `QueueManager._process_chunk`:
`analysis_result.get("emotion", "unknown")` yields the pipeline's emotion
value, which is `None` for dropped chunks; pydantic then raises
`ValidationError` (`emotion : str` is not Optional), modelled as `none`. -/
def mkChunkResult (timestamp : Int) (p : PipelineResult) : Option ChunkResult :=
  match p.emotion with
  | none => none
  | some e =>
      some { timestamp := timestamp
             emotion := e
             emotion_confidence := p.emotion_confidence
             transcript := some p.transcript
             language := some p.language
             sentiment := some p.sentiment
             sentiment_confidence := some p.sentiment_confidence }

/-! ### Association lists with python-dict semantics -/

/-- Dict lookup (`d.get(k)`). -/
def alookup {α β : Type} [DecidableEq α] (l : List (α × β)) (k : α) : Option β :=
  match l with
  | [] => none
  | (k1, v) :: rest => if k1 = k then some v else alookup rest k

/-- Dict store (`d[k] = v`): update in place keeps the key's position,
a fresh key is appended at the end (CPython insertion order). -/
def aset {α β : Type} [DecidableEq α] (l : List (α × β)) (k : α) (v : β) :
    List (α × β) :=
  match l with
  | [] => [(k, v)]
  | (k1, v1) :: rest => if k1 = k then (k, v) :: rest else (k1, v1) :: aset rest k v

/-! ### Session manager (`app/session_manager.py`) -/

/-- Session identifiers in the source are the string
`f"{user_id}_{timestamp.strftime('%Y%m%d_%H%M%S')}"`.  With timestamps at
whole-second granularity that formatting is injective, so the id is
modelled as the pair (user id, timestamp in seconds). -/
def SessionId : Type := String × Int
deriving instance DecidableEq, Repr for SessionId

/-- `_session_metadata[user][sid]` entry. -/
structure SessMeta where
  start_time : Int
  last_chunk_time : Int
  deriving Repr, DecidableEq

/-- Per-user state held by `SessionManager`:
`_sessions[user]` and `_session_metadata[user]`. -/
structure UserSessions where
  sessions : List (SessionId × List ChunkResult) := []
  metadata : List (SessionId × SessMeta) := []
  deriving Repr, DecidableEq

/-- The whole tracker: `user_id → UserSessions` (defaultdict). -/
def Tracker : Type := List (String × UserSessions)
deriving instance DecidableEq, Repr for Tracker

/-- defaultdict read: a missing user maps to the empty submaps. -/
def trackerGet (t : Tracker) (user : String) : UserSessions :=
  (alookup t user).getD {}

/-- The loop in `_detect_or_create_session` that finds the session with the
greatest `last_chunk_time`: iterate the metadata dict in order, keeping the
first strictly-greater entry (`>` comparison, initial `None`). -/
def mostRecentSession (l : List (SessionId × SessMeta)) :
    Option (SessionId × Int) :=
  l.foldl
    (fun acc p =>
      match acc with
      | none => some (p.1, p.2.last_chunk_time)
      | some (sid, t) =>
          if p.2.last_chunk_time > t then some (p.1, p.2.last_chunk_time)
          else some (sid, t))
    none

/-- `SessionManager._detect_or_create_session`. -/
def detectOrCreateSession (us : UserSessions) (user : String)
    (timestamp : Int) (gapThreshold : Int) : SessionId :=
  if us.sessions.isEmpty then (user, timestamp)
  else
    match mostRecentSession us.metadata with
    | some (sid, mostRecentTime) =>
        if timestamp - mostRecentTime > gapThreshold then (user, timestamp)
        else sid
    | none => (user, timestamp)

/-- `SessionManager.add_result`: detect/create the session, initialise the
submaps for a fresh session id, append the result, and unconditionally
overwrite `last_chunk_time` with the result's timestamp. -/
def addResult (t : Tracker) (gapThreshold : Int) (user : String)
    (result : ChunkResult) : SessionId × Tracker :=
  let us := trackerGet t user
  let sid := detectOrCreateSession us user result.timestamp gapThreshold
  let us1 :=
    match alookup us.sessions sid with
    | some _ => us
    | none =>
        { sessions := aset us.sessions sid []
          metadata := aset us.metadata sid
            { start_time := result.timestamp
              last_chunk_time := result.timestamp } }
  let existing := (alookup us1.sessions sid).getD []
  let meta := (alookup us1.metadata sid).getD
    { start_time := result.timestamp, last_chunk_time := result.timestamp }
  let us2 : UserSessions :=
    { sessions := aset us1.sessions sid (existing ++ [result])
      metadata := aset us1.metadata sid
        { meta with last_chunk_time := result.timestamp } }
  (sid, aset t user us2)

/-- Default `SESSION_GAP_THRESHOLD_SECONDS` from `app/config.py`. -/
def SESSION_GAP_THRESHOLD_SECONDS : Int := 60

/-! ### Queue manager worker (`app/queue_manager.py`) -/

/-- The `result_dict` built by `_process_chunk` from the `ChunkResult`. -/
structure ResultDict where
  emotion : String
  emotion_confidence : Rat
  transcript : Option String
  language : Option String
  sentiment : Option String
  sentiment_confidence : Option Rat
  deriving Repr, DecidableEq

/-- `result_dict = {...}` in `_process_chunk`. -/
def toResultDict (c : ChunkResult) : ResultDict :=
  { emotion := c.emotion
    emotion_confidence := c.emotion_confidence
    transcript := c.transcript
    language := c.language
    sentiment := c.sentiment
    sentiment_confidence := c.sentiment_confidence }

/-- One line of the JSONL results file written by `_log_result_to_file`
(the wall-clock `processed_at` field carries no information used by any
claim and is omitted). -/
structure LogLine where
  user_id : String
  timestamp : Int
  result : ResultDict
  deriving Repr, DecidableEq

/-- One entry of `QueueManager._recent_results`. -/
structure RecentResult where
  user_id : String
  timestamp : Int
  result : ResultDict
  deriving Repr, DecidableEq

/-- A row of the `voice_emotion` store table as written by
`insert_voice_emotion` in `app/database.py`. -/
structure SpeechRow where
  user_id : String
  timestamp : Int
  predicted_emotion : String
  emotion_confidence : Rat
  is_synthetic : Bool
  deriving Repr, DecidableEq

/-- Observable state touched by the queue worker: the session tracker, the
recent-results ring, the JSONL result log, the speech store table and the
set of temp files currently on disk. -/
structure WorkerState where
  tracker : Tracker := []
  recentResults : List RecentResult := []
  resultLog : List LogLine := []
  speechTable : List SpeechRow := []
  files : List String := []
  deriving Repr, DecidableEq

/-- The `finally` block of `_process_chunk`:
`if os.path.exists(path): os.remove(path)`. -/
def removeFile (path : String) (s : WorkerState) : WorkerState :=
  { s with files := s.files.erase path }

/-- `QueueManager._process_chunk` for one chunk, with the pipeline output
given explicitly (`analyze_full` is the external ML call).  A `None`
pipeline emotion makes the `ChunkResult(...)` constructor raise
(`ValidationError`), so the `except` path returns `None` having touched
nothing; otherwise the result is stored in the session manager and logged.
Either way the `finally` block unlinks the temp file.  `logEnabled` is
`settings.RESULTS_LOG_ENABLED` (default true). -/
def processChunk (logEnabled : Bool) (gapThreshold : Int) (user : String)
    (audioPath : String) (timestamp : Int) (p : PipelineResult)
    (s : WorkerState) : Option ResultDict × WorkerState :=
  match mkChunkResult timestamp p with
  | none => (none, removeFile audioPath s)
  | some chunkResult =>
      let (_, tracker1) := addResult s.tracker gapThreshold user chunkResult
      let rd := toResultDict chunkResult
      let log1 :=
        if logEnabled then s.resultLog ++ [⟨user, timestamp, rd⟩]
        else s.resultLog
      (some rd,
        removeFile audioPath
          { s with tracker := tracker1, resultLog := log1 })

/-- `_max_recent_results` in `QueueManager.__init__`. -/
def MAX_RECENT_RESULTS : Nat := 100

/-- One iteration of `_worker_loop` after dequeueing a job: run
`_process_chunk`, and if it returned a result, prepend it to
`_recent_results` truncated to the last `MAX_RECENT_RESULTS` entries. -/
def workerStep (logEnabled : Bool) (gapThreshold : Int) (user : String)
    (audioPath : String) (timestamp : Int) (p : PipelineResult)
    (s : WorkerState) : Option ResultDict × WorkerState :=
  let (res, s1) := processChunk logEnabled gapThreshold user audioPath timestamp p s
  match res with
  | some rd =>
      let ring := List.take MAX_RECENT_RESULTS
        (RecentResult.mk user timestamp rd :: s1.recentResults)
      (some rd, { s1 with recentResults := ring })
  | none => (none, s1)

/-! ### HTTP ingest endpoint (`app/api.py`) and the queue -/

/-- A queue item `(user_id, audio_file_path, timestamp, filename)`. -/
structure ChunkJob where
  user_id : String
  audio_file_path : String
  timestamp : Int
  filename : Option String
  deriving Repr, DecidableEq

/-- Dashboard metadata appended by `enqueue_chunk`. -/
structure QueueItemMeta where
  user_id : String
  timestamp : Int
  filename : String
  deriving Repr, DecidableEq

/-- State touched by the ingest handler. -/
structure ApiState where
  queue : List ChunkJob := []
  queueItems : List QueueItemMeta := []
  files : List String := []
  deriving Repr, DecidableEq

/-- `QueueManager.enqueue_chunk`.  `self.queue` is constructed as
`Queue()` — maxsize 0, i.e. an UNBOUNDED queue — so
`put(..., block=False)` can never raise `queue.Full`; the `except`
branch (return `False`) is unreachable and enqueue always returns `True`
after appending the job and its dashboard metadata. -/
def enqueueChunk (s : ApiState) (job : ChunkJob) : Bool × ApiState :=
  (true,
    { s with
        queue := s.queue ++ [job]
        queueItems := s.queueItems ++
          [⟨job.user_id, job.timestamp,
            job.filename.getD job.audio_file_path⟩] })

/-- python's `filename.endswith(".wav")`, written over the character
lists so that it evaluates inside the kernel. -/
def endsWithWav (filename : String) : Bool :=
  ".wav".data.isSuffixOf filename.data

/-- HTTP response of `analyze_speech`:
status code plus the reported queue size for the 200 body. -/
structure HttpResponse where
  status : Nat
  queue_size : Option Nat
  deriving Repr, DecidableEq

/-- `POST /ser/analyze-speech` (`analyze_speech` in `app/api.py`).
`uuidOk` is the outcome of the external `uuid.UUID(user_id)` parse.
The upload is persisted to `tmpPath`, a job is built and enqueued; on
enqueue failure the handler would unlink the temp file and answer 500
(the code has no 503 path), but `enqueue_chunk` always succeeds. -/
def analyzeSpeech (uuidOk : Bool) (filename : String) (user : String)
    (tmpPath : String) (timestamp : Int) (s : ApiState) :
    HttpResponse × ApiState :=
  if uuidOk = false then ({ status := 400, queue_size := none }, s)
  else if endsWithWav filename = false then
    ({ status := 400, queue_size := none }, s)
  else
    let s1 := { s with files := s.files ++ [tmpPath] }
    let job : ChunkJob :=
      { user_id := user, audio_file_path := tmpPath
        timestamp := timestamp, filename := some filename }
    let (ok, s2) := enqueueChunk s1 job
    if ok then
      ({ status := 200, queue_size := some s2.queue.length }, s2)
    else
      ({ status := 500, queue_size := none },
        { s2 with files := s2.files.erase tmpPath })

/-! ### Aggregator (`app/aggregator.py`, `_aggregate_session`) -/

/-- `AggregatedResult` from `app/models.py`. -/
structure AggregatedResult where
  timestamp : Int
  user_id : String
  session_id : SessionId
  window_start : Int
  window_end : Int
  chunk_count : Nat
  emotion : String
  emotion_confidence : Rat
  sentiment : Option String := none
  sentiment_confidence : Option Rat := none
  deriving Repr, DecidableEq

/-- `defaultdict(list)` append: `d[k].append(v)` (a fresh key enters the
dict at the end, in iteration order). -/
def appendConf (l : List (String × List Rat)) (k : String) (v : Rat) :
    List (String × List Rat) :=
  match alookup l k with
  | some vs => aset l k (vs ++ [v])
  | none => aset l k [v]

/-- The `emotion_confidences` dict of `_aggregate_session`.  (The source's
defensive `if result.emotion is None: continue` is unreachable: pydantic
guarantees `ChunkResult.emotion` is a string, see `mkChunkResult`.) -/
def emotionConfidences (results : List ChunkResult) :
    List (String × List Rat) :=
  results.foldl (fun acc r => appendConf acc r.emotion r.emotion_confidence) []

/-- `sum(confs) / len(confs)`. -/
def mean (l : List Rat) : Rat := l.sum / l.length

/-- The `emotion_avg_confidences` dict: per-label mean confidence. -/
def emotionAvgConfidences (results : List ChunkResult) :
    List (String × Rat) :=
  (emotionConfidences results).map (fun p => (p.1, mean p.2))

/-- Python `max(items, key=lambda x: x[1])` over dict items: scan in
iteration order, replacing only on a strictly greater key, so the first
maximal element wins ties. -/
def maxFromSnd {β : Type} [LinearOrder β] (cur : String × β) :
    List (String × β) → String × β
  | [] => cur
  | p :: rest => maxFromSnd (if p.2 > cur.2 then p else cur) rest

/-- `max(d.items(), key=lambda x: x[1])`; `none` on an empty dict. -/
def maxBySnd {β : Type} [LinearOrder β] :
    List (String × β) → Option (String × β)
  | [] => none
  | p :: rest => some (maxFromSnd p rest)

/-- The `sentiment_confidences` dict: only results with a truthy sentiment
(`if result.sentiment and result.sentiment_confidence is not None`; an
empty string is falsy in python) contribute. -/
def sentimentConfidences (results : List ChunkResult) :
    List (String × List Rat) :=
  results.foldl
    (fun acc r =>
      match r.sentiment, r.sentiment_confidence with
      | some s, some c => if s = "" then acc else appendConf acc s c
      | _, _ => acc)
    []

/-- Sentiment aggregation: most-frequent sentiment (first wins ties),
mean of its confidences. -/
def aggregateSentiment (results : List ChunkResult) :
    Option String × Option Rat :=
  let sconfs := sentimentConfidences results
  match maxBySnd (sconfs.map (fun p => (p.1, p.2.length))) with
  | some (s, _) => (some s, some (mean ((alookup sconfs s).getD [])))
  | none => (none, none)

/-- `Aggregator._aggregate_session`.  An empty chunk list raises
`ValueError` (modelled as `none`); otherwise the emitted record's emotion
is the label with the greatest per-label mean confidence (python `max`
with the `"unknown"` fallback for an empty dict), and the sentiment is
aggregated by frequency. -/
def aggregateSession (user : String) (sid : SessionId)
    (results : List ChunkResult) (window_start window_end : Int) :
    Option AggregatedResult :=
  if results.isEmpty then none
  else
    let best :=
      match maxBySnd (emotionAvgConfidences results) with
      | some p => p
      | none => ("unknown", 0)
    let sentPair := aggregateSentiment results
    some { timestamp := window_end
           user_id := user
           session_id := sid
           window_start := window_start
           window_end := window_end
           chunk_count := results.length
           emotion := best.1
           emotion_confidence := best.2
           sentiment := sentPair.1
           sentiment_confidence := sentPair.2 }

/-! ### Result memory log (`app/ser_result_logger.py`) -/

/-- Payload of `log_aggregated_result`'s `aggregated_result` argument. -/
structure AggPayload where
  emotion : String
  emotion_confidence : Rat
  sentiment : Option String
  sentiment_confidence : Option Rat
  deriving Repr, DecidableEq

/-- One entry of the `_aggregated_results` deque. -/
structure AggregatedLogEntry where
  timestamp : Int
  user_id : String
  session_id : SessionId
  window_start : Int
  window_end : Int
  chunk_count : Nat
  aggregated_result : AggPayload
  deriving Repr, DecidableEq

/-- One entry of the `_individual_results` deque. -/
structure IndividualLogEntry where
  user_id : String
  timestamp : Int
  result : ResultDict
  deriving Repr, DecidableEq

/-- `read_aggregated_results`: copy the deque (oldest first), reverse to
newest-first, filter by user if given, then slice to `limit`. -/
def readAggregatedResults (entries : List AggregatedLogEntry)
    (limit : Nat) (user_id : Option String) : List AggregatedLogEntry :=
  let allEntries := entries.reverse
  let filtered :=
    match user_id with
    | some u => allEntries.filter (fun (e : AggregatedLogEntry) => e.user_id == u)
    | none => allEntries
  filtered.take limit

/-- `read_individual_results`: same shape as `read_aggregated_results`
over the individual-results deque. -/
def readIndividualResults (entries : List IndividualLogEntry)
    (limit : Nat) (user_id : Option String) : List IndividualLogEntry :=
  let allEntries := entries.reverse
  let filtered :=
    match user_id with
    | some u => allEntries.filter (fun (e : IndividualLogEntry) => e.user_id == u)
    | none => allEntries
  filtered.take limit

/-! ### Startup sequence (`app/main.py`, `startup_event`) -/

/-- The background services the spec's lifecycle section talks about. -/
inductive StartupAction where
  | startWorkerThread
  | startAggregatorTask
  | startGeneratorTask
  deriving Repr, DecidableEq

/-- The ordered actions of `startup_event` in `app/main.py`: it starts the
QueueManager worker thread, then creates the auto-signal-generation task,
and nothing else.  No call to `Aggregator.start_periodic_aggregation`
(nor even `Aggregator.get_instance`) exists anywhere in the repository —
and `Aggregator.__init__` would raise `AttributeError` if it were called,
since its log line reads `self.log_dir`, an attribute never assigned. -/
def serStartupActions : List StartupAction :=
  [StartupAction.startWorkerThread, StartupAction.startGeneratorTask]

/-! ### Synthetic signal generator
(`app/main.py` `auto_signal_generation_task`,
`simulation/signal_generator.py`) -/

/-- The three simulation modalities, `["ser", "fer", "vitals"]` in
`app/main.py` and `ModalityToggleManager`. -/
inductive Modality where
  | ser
  | fer
  | vitals
  deriving Repr, DecidableEq

/-- The iteration order of `modalities` in `auto_signal_generation_task`. -/
def modalityList : List Modality := [Modality.ser, Modality.fer, Modality.vitals]

/-- The `ModelSignal.modality` string for each generator modality
(`generate_random_signals`). -/
def signalModality : Modality → String
  | Modality.ser => "speech"
  | Modality.fer => "face"
  | Modality.vitals => "vitals"

/-- The store table each modality's `write_signals_locally` branch writes
to (`insert_voice_emotion` / `insert_face_emotion_synthetic` /
`insert_vitals_emotion_synthetic` in `app/database.py`). -/
def tableOf : Modality → String
  | Modality.ser => "voice_emotion"
  | Modality.fer => "face_emotion"
  | Modality.vitals => "bvs_emotion"

/-- `ModelSignal` from `app/models.py`. -/
structure ModelSignal where
  user_id : String
  timestamp : Int
  modality : String
  emotion_label : String
  confidence : Rat
  deriving Repr, DecidableEq

/-- One outcome of the random draws in `generate_random_signals` for a
single signal: the (possibly bias-weighted) emotion choice, the uniform
confidence in [0.5, 0.95], and the random inter-signal offset. -/
structure SignalDraw where
  emotion : String
  confidence : Rat
  offsetSeconds : Int
  deriving Repr, DecidableEq

/-- `generate_random_signals`: `count` signals for one modality; signal
`i` is stamped `timestamp + i * uniform(1, 10)` seconds.  The random
choices are supplied by the `draw` oracle. -/
def generateRandomSignals (user : String) (m : Modality)
    (timestamp : Int) (count : Nat) (draw : Nat → SignalDraw) :
    List ModelSignal :=
  (List.range count).map
    (fun i =>
      { user_id := user
        timestamp := timestamp + Int.ofNat i * (draw i).offsetSeconds
        modality := signalModality m
        emotion_label := (draw i).emotion
        confidence := (draw i).confidence })

/-- The `emotion_map` used by the `"ser"` branch of
`write_signals_locally` to turn the fusion label back into the SER label
stored in `predicted_emotion` (fallback: `label.lower()[:3]`). -/
def fusionToSerLabel (label : String) : String :=
  match label with
  | "Happy" => "hap"
  | "Sad" => "sad"
  | "Angry" => "ang"
  | "Fear" => "fea"
  | _ => String.mk ((pyLower label).data.take 3)

/-- A row written to one of the three emotion tables. -/
structure StoreInsert where
  table : String
  user_id : String
  timestamp : Int
  predicted_emotion : String
  emotion_confidence : Rat
  is_synthetic : Bool
  deriving Repr, DecidableEq

/-- `write_signals_locally`: one store insert per signal, into the
modality's table, with the synthetic flag set. -/
def writeSignalsLocally (m : Modality) (signals : List ModelSignal) :
    List StoreInsert :=
  signals.map
    (fun s =>
      { table := tableOf m
        user_id := s.user_id
        timestamp := s.timestamp
        predicted_emotion :=
          match m with
          | Modality.ser => fusionToSerLabel s.emotion_label
          | _ => s.emotion_label
        emotion_confidence := s.confidence
        is_synthetic := true })

/-- `generate_and_send_signals(modality, user_id, count, cloud_url=None)`:
with no cloud url the generated signals are written locally. -/
def generateAndSendSignals (user : String) (m : Modality) (now : Int)
    (count : Nat) (draw : Nat → SignalDraw) : List StoreInsert :=
  writeSignalsLocally m (generateRandomSignals user m now count draw)

/-- One tick of `auto_signal_generation_task` in `app/main.py`: if demo
mode is off nothing is generated; otherwise each enabled modality (in
list order) gets one `generate_and_send_signals(..., count=1)` call. -/
def autoGenerationTick (demoEnabled : Bool) (enabled : Modality → Bool)
    (user : String) (now : Int) (draw : Modality → Nat → SignalDraw) :
    List StoreInsert :=
  if demoEnabled then
    modalityList.foldl
      (fun acc m =>
        if enabled m then acc ++ generateAndSendSignals user m now 1 (draw m)
        else acc)
      []
  else []

/-! ### Observation helpers and iterated runs -/

/-- `_session_metadata[user][sid]['last_chunk_time']`. -/
def lastChunkTime (t : Tracker) (u : String) (sid : SessionId) : Option Int :=
  (alookup (trackerGet t u).metadata sid).map (fun m => m.last_chunk_time)

/-- All emotion labels stored in one user's sessions. -/
def userEmotions (us : UserSessions) : List String :=
  us.sessions.flatMap (fun q => q.2.map ChunkResult.emotion)

/-- All emotion labels of ChunkResults held anywhere in the tracker. -/
def emotionsIn (t : Tracker) : List String :=
  t.flatMap (fun p => userEmotions p.2)

/-- One dequeued job together with the ML outcome its pipeline run will
produce. -/
structure WorkerJob where
  user : String
  path : String
  timestamp : Int
  ml : MLOutcome
  deriving Repr, DecidableEq

/-- A run of the worker loop over a list of jobs. -/
def runWorker (logEnabled : Bool) (gapThreshold : Int)
    (jobs : List WorkerJob) (s : WorkerState) : WorkerState :=
  jobs.foldl
    (fun st j =>
      (workerStep logEnabled gapThreshold j.user j.path j.timestamp
        (analyzeFull j.ml) st).2)
    s

/-- The emotion strings `analyze_full` can actually hand to the worker:
the four downstream classes plus the `"Error"` marker emitted when
`validate_audio` fails. -/
def allowedEmotionLabels : List String := fourClassLabels ++ ["Error"]

/-! ### Concrete sample inputs used by witnesses and counterexamples -/

/-- A chunk result with the given timestamp (emotion/confidence fixed). -/
def chunkAt (t : Int) : ChunkResult :=
  { timestamp := t, emotion := "Happy", emotion_confidence := 1 }

/-- ML outcome of a neutral-class chunk (mapped to drop). -/
def mNeutralOutcome : MLOutcome :=
  { validationOk := true, serOk := true, emotion9 := "neutral"
    confidence := 99/100, transcript := "t", language := "en"
    sentiment := "POS", sentimentConfidence := 1/2 }

/-- ML outcome of a happy chunk. -/
def mHappyOutcome : MLOutcome :=
  { validationOk := true, serOk := true, emotion9 := "happy"
    confidence := 9/10, transcript := "hi", language := "en"
    sentiment := "POS", sentimentConfidence := 4/5 }

/-- ML outcome of a chunk that fails `validate_audio`. -/
def mErrorOutcome : MLOutcome :=
  { validationOk := false, serOk := false, emotion9 := "x"
    confidence := 0, transcript := "", language := ""
    sentiment := "", sentimentConfidence := 0 }

/-- Worker state holding just the temp file of the sample job. -/
def sampleWorkerState : WorkerState := { files := ["/tmp/a.wav"] }

/-- The `ChunkResult` the worker builds from `mErrorOutcome`. -/
def errorChunk : ChunkResult :=
  { timestamp := 5, emotion := "Error", emotion_confidence := 0
    transcript := some "Audio validation failed", language := some "N/A"
    sentiment := some "N/A", sentiment_confidence := some 0 }

/-- A job whose pipeline run fails audio validation. -/
def badJob : WorkerJob :=
  { user := "u", path := "/tmp/a.wav", timestamp := 5, ml := mErrorOutcome }

/-- Scenario S4 of the spec: Happy 0.6, Happy 0.8, Sad 0.95. -/
def s4Results : List ChunkResult :=
  [{ timestamp := 1, emotion := "Happy", emotion_confidence := 6/10 },
   { timestamp := 2, emotion := "Happy", emotion_confidence := 8/10 },
   { timestamp := 3, emotion := "Sad", emotion_confidence := 95/100 }]

/-- The record `aggregateSession` emits for `s4Results`. -/
def s4Aggregate : AggregatedResult :=
  { timestamp := 300, user_id := "u", session_id := ("u", 0)
    window_start := 0, window_end := 300, chunk_count := 3
    emotion := "Sad", emotion_confidence := 19/20
    sentiment := none, sentiment_confidence := none }

/-- The aggregate emitted over the single-chunk session `[errorChunk]`
(fields written as the aggregator computes them). -/
def errAggregate : AggregatedResult :=
  { timestamp := 300, user_id := "u", session_id := ("u", 5)
    window_start := 0, window_end := 300, chunk_count := 1
    emotion := "Error", emotion_confidence := mean [0]
    sentiment := some "N/A", sentiment_confidence := some (mean [0]) }

/-- A pending queue job, used to fill the queue to the claimed capacity. -/
def sampleJob : ChunkJob :=
  { user_id := "u", audio_file_path := "/tmp/q.wav", timestamp := 0
    filename := some "q.wav" }

/-- An `ApiState` whose queue already holds 1024 items — the capacity the
claim says is the bound. -/
def fullQueueState : ApiState :=
  { queue := List.replicate 1024 sampleJob, queueItems := [], files := [] }

/-- A single-session user state: one session keyed ("u", 100) whose last
chunk arrived at t = 100. -/
def usOneSession : UserSessions :=
  { sessions := [(("u", 100), [chunkAt 100])]
    metadata := [(("u", 100), { start_time := 100, last_chunk_time := 100 })] }

/-- Toggle state with only the face modality enabled. -/
def enFerOnly : Modality → Bool := fun m => m = Modality.fer

/-- A constant random-draw oracle. -/
def constDraw : Modality → Nat → SignalDraw :=
  fun _ _ => { emotion := "Sad", confidence := 3/4, offsetSeconds := 2 }

/-- The `ChunkResult` the worker constructs from a pipeline output whose
emotion mapped to the 4-class label `e`. -/
def pipelineChunk (ts : Int) (m : MLOutcome) (e : String) : ChunkResult :=
  { timestamp := ts, emotion := e, emotion_confidence := m.confidence
    transcript := some m.transcript, language := some m.language
    sentiment := some m.sentiment
    sentiment_confidence := some m.sentimentConfidence }

/-- Sample aggregated-log entries (timestamps double as payload ids). -/
def sampleAggEntry (u : String) (n : Int) : AggregatedLogEntry :=
  { timestamp := n, user_id := u, session_id := (u, n), window_start := 0
    window_end := 0, chunk_count := 1
    aggregated_result :=
      { emotion := "Happy", emotion_confidence := 1/2
        sentiment := none, sentiment_confidence := none } }

/-! ## Helper lemmas about the dict model -/

theorem alookup_aset_self {α β : Type} [DecidableEq α]
    (l : List (α × β)) (k : α) (v : β) :
    alookup (aset l k v) k = some v := by
  induction l with
  | nil => simp [aset, alookup]
  | cons p rest ih =>
      obtain ⟨k1, v1⟩ := p
      by_cases h : k1 = k
      · simp [aset, h, alookup]
      · simp [aset, h, alookup, ih]

theorem mem_aset {α β : Type} [DecidableEq α]
    {l : List (α × β)} {k : α} {v : β} {p : α × β}
    (h : p ∈ aset l k v) : p = (k, v) ∨ p ∈ l := by
  induction l with
  | nil => simpa [aset] using h
  | cons q rest ih =>
      obtain ⟨k1, v1⟩ := q
      by_cases hk : k1 = k
      · rw [aset, if_pos hk] at h
        rcases List.mem_cons.mp h with h1 | h1
        · exact Or.inl h1
        · exact Or.inr (List.mem_cons_of_mem _ h1)
      · rw [aset, if_neg hk] at h
        rcases List.mem_cons.mp h with h1 | h1
        · exact Or.inr (h1 ▸ List.mem_cons_self _ _)
        · rcases ih h1 with h2 | h2
          · exact Or.inl h2
          · exact Or.inr (List.mem_cons_of_mem _ h2)

theorem alookup_mem {α β : Type} [DecidableEq α]
    {l : List (α × β)} {k : α} {v : β}
    (h : alookup l k = some v) : (k, v) ∈ l := by
  induction l with
  | nil => simp [alookup] at h
  | cons q rest ih =>
      obtain ⟨k1, v1⟩ := q
      by_cases hk : k1 = k
      · rw [alookup, if_pos hk] at h
        obtain rfl : v1 = v := by simpa using h
        exact hk ▸ List.mem_cons_self _ _
      · rw [alookup, if_neg hk] at h
        exact List.mem_cons_of_mem _ (ih h)

theorem aset_ne_nil {α β : Type} [DecidableEq α]
    (l : List (α × β)) (k : α) (v : β) : aset l k v ≠ [] := by
  cases l with
  | nil => simp [aset]
  | cons p rest =>
      obtain ⟨k1, v1⟩ := p
      by_cases h : k1 = k <;> simp [aset, h]

/-! ## Helper lemmas about python `max(..., key=...)` -/

theorem maxFromSnd_mem {β : Type} [LinearOrder β]
    (cur : String × β) (l : List (String × β)) :
    maxFromSnd cur l ∈ cur :: l := by
  induction l generalizing cur with
  | nil => simp [maxFromSnd]
  | cons p rest ih =>
      simp only [maxFromSnd]
      rcases List.mem_cons.mp (ih (if p.2 > cur.2 then p else cur)) with h1 | h1
      · rw [h1]
        by_cases hc : p.2 > cur.2 <;> simp [hc]
      · exact List.mem_cons_of_mem _ (List.mem_cons_of_mem _ h1)

theorem maxFromSnd_ge {β : Type} [LinearOrder β]
    (cur : String × β) (l : List (String × β)) :
    ∀ q ∈ cur :: l, q.2 ≤ (maxFromSnd cur l).2 := by
  induction l generalizing cur with
  | nil =>
      intro q hq
      rcases List.mem_cons.mp hq with h1 | h1
      · rw [h1]; simp [maxFromSnd]
      · simp at h1
  | cons p rest ih =>
      intro q hq
      simp only [maxFromSnd]
      have hcur : cur.2 ≤ (if p.2 > cur.2 then p else cur).2 := by
        by_cases hc : p.2 > cur.2 <;> simp [hc]
        exact le_of_lt hc
      have hp : p.2 ≤ (if p.2 > cur.2 then p else cur).2 := by
        by_cases hc : p.2 > cur.2 <;> simp [hc]
        exact le_of_not_lt hc
      have hhead : (if p.2 > cur.2 then p else cur).2 ≤
          (maxFromSnd (if p.2 > cur.2 then p else cur) rest).2 :=
        ih _ _ (List.mem_cons_self _ _)
      rcases List.mem_cons.mp hq with rfl | h1
      · exact le_trans hcur hhead
      · rcases List.mem_cons.mp h1 with rfl | h2
        · exact le_trans hp hhead
        · exact ih _ q (List.mem_cons_of_mem _ h2)

/-! ## Helper lemmas about the aggregator dicts -/

theorem appendConf_ne_nil (l : List (String × List Rat)) (k : String)
    (v : Rat) : appendConf l k v ≠ [] := by
  unfold appendConf
  cases h : alookup l k <;> simp [h] <;> exact aset_ne_nil _ _ _

theorem foldl_appendConf_ne_nil (rs : List ChunkResult) :
    ∀ acc : List (String × List Rat), acc ≠ [] →
      rs.foldl (fun a r => appendConf a r.emotion r.emotion_confidence) acc
        ≠ [] := by
  induction rs with
  | nil => intro acc h; simpa using h
  | cons r rest ih =>
      intro acc _
      simp only [List.foldl_cons]
      exact ih _ (appendConf_ne_nil _ _ _)

theorem emotionConfidences_ne_nil {results : List ChunkResult}
    (h : results ≠ []) : emotionConfidences results ≠ [] := by
  cases results with
  | nil => exact absurd rfl h
  | cons r rest =>
      unfold emotionConfidences
      simp only [List.foldl_cons]
      exact foldl_appendConf_ne_nil rest _ (appendConf_ne_nil _ _ _)

theorem fst_mem_appendConf {l : List (String × List Rat)} {k : String}
    {v : Rat} {q : String × List Rat} (h : q ∈ appendConf l k v) :
    q.1 = k ∨ q.1 ∈ l.map Prod.fst := by
  unfold appendConf at h
  cases ha : alookup l k with
  | some vs =>
      rw [ha] at h
      rcases mem_aset h with h1 | h1
      · exact Or.inl (by rw [h1])
      · exact Or.inr (List.mem_map_of_mem _ h1)
  | none =>
      rw [ha] at h
      rcases mem_aset h with h1 | h1
      · exact Or.inl (by rw [h1])
      · exact Or.inr (List.mem_map_of_mem _ h1)

theorem fst_mem_emotionConfidences_aux (rs : List ChunkResult) :
    ∀ (acc : List (String × List Rat)) (q : String × List Rat),
      q ∈ rs.foldl (fun a r => appendConf a r.emotion r.emotion_confidence) acc →
      q.1 ∈ acc.map Prod.fst ∨ q.1 ∈ rs.map ChunkResult.emotion := by
  induction rs with
  | nil =>
      intro acc q h
      exact Or.inl (List.mem_map_of_mem _ (by simpa using h))
  | cons r rest ih =>
      intro acc q h
      simp only [List.foldl_cons] at h
      rcases ih _ q h with h1 | h1
      · obtain ⟨p, hp, hpq⟩ := List.mem_map.mp h1
        rcases fst_mem_appendConf hp with h2 | h2
        · refine Or.inr ?_
          rw [← hpq, h2]
          exact List.mem_map_of_mem ChunkResult.emotion (List.mem_cons_self r rest)
        · exact Or.inl (hpq ▸ h2)
      · exact Or.inr (by
          rcases List.mem_map.mp h1 with ⟨c, hc, hcq⟩
          exact hcq ▸ List.mem_map_of_mem _ (List.mem_cons_of_mem _ hc))

theorem fst_mem_emotionConfidences {results : List ChunkResult}
    {q : String × List Rat} (h : q ∈ emotionConfidences results) :
    q.1 ∈ results.map ChunkResult.emotion := by
  rcases fst_mem_emotionConfidences_aux results [] q h with h1 | h1
  · simp at h1
  · exact h1

/-! ## Helper lemmas about tracker contents -/

theorem mem_emotionsIn_aset {t : Tracker} {u : String} {us2 : UserSessions}
    {e : String} (h : e ∈ emotionsIn (aset t u us2)) :
    e ∈ emotionsIn t ∨ e ∈ userEmotions us2 := by
  rcases List.mem_flatMap.mp h with ⟨p, hp, he⟩
  rcases mem_aset hp with h1 | h1
  · exact Or.inr (by rw [h1] at he; exact he)
  · exact Or.inl (List.mem_flatMap.mpr ⟨p, h1, he⟩)

theorem mem_sessionsEmotions_aset
    {S : List (SessionId × List ChunkResult)} {sid : SessionId}
    {rs : List ChunkResult} {e : String}
    (h : e ∈ (aset S sid rs).flatMap (fun q => q.2.map ChunkResult.emotion)) :
    e ∈ rs.map ChunkResult.emotion ∨
      e ∈ S.flatMap (fun q => q.2.map ChunkResult.emotion) := by
  rcases List.mem_flatMap.mp h with ⟨q, hq, he⟩
  rcases mem_aset hq with h1 | h1
  · exact Or.inl (by rw [h1] at he; exact he)
  · exact Or.inr (List.mem_flatMap.mpr ⟨q, h1, he⟩)

theorem mem_emotionsIn_of_trackerGet (u : String) {t : Tracker} {e : String}
    (h : e ∈ userEmotions (trackerGet t u)) : e ∈ emotionsIn t := by
  unfold trackerGet at h
  cases ha : alookup t u with
  | none =>
      rw [ha] at h
      simp [userEmotions] at h
  | some us =>
      rw [ha] at h
      exact List.mem_flatMap.mpr ⟨(u, us), alookup_mem ha, h⟩

theorem mem_emotionsIn_addResult {t : Tracker} {gap : Int} {u : String}
    {r : ChunkResult} {e : String}
    (h : e ∈ emotionsIn (addResult t gap u r).2) :
    e ∈ emotionsIn t ∨ e = r.emotion := by
  simp only [addResult] at h
  cases hlk : alookup (trackerGet t u).sessions
      (detectOrCreateSession (trackerGet t u) u r.timestamp gap) with
  | some vs =>
      simp only [hlk] at h
      rcases mem_emotionsIn_aset h with h1 | h1
      · exact Or.inl h1
      · rcases mem_sessionsEmotions_aset (by simpa [userEmotions] using h1)
          with h2 | h2
        · rw [List.map_append] at h2
          rcases List.mem_append.mp h2 with h3 | h3
          · refine Or.inl (mem_emotionsIn_of_trackerGet u ?_)
            exact List.mem_flatMap.mpr ⟨_, alookup_mem hlk, h3⟩
          · exact Or.inr (by simpa using h3)
        · exact Or.inl (mem_emotionsIn_of_trackerGet u
            (by simpa [userEmotions] using h2))
  | none =>
      simp only [hlk, alookup_aset_self] at h
      rcases mem_emotionsIn_aset h with h1 | h1
      · exact Or.inl h1
      · rcases mem_sessionsEmotions_aset (by simpa [userEmotions] using h1)
          with h2 | h2
        · exact Or.inr (by simpa using h2)
        · rcases mem_sessionsEmotions_aset h2 with h3 | h3
          · simp at h3
          · exact Or.inl (mem_emotionsIn_of_trackerGet u
              (by simpa [userEmotions] using h3))

/-! ## Helper lemmas about the pipeline and the worker -/

theorem mapTo4Class_mem {s e : String} (h : mapTo4Class s = some e) :
    e ∈ fourClassLabels := by
  unfold mapTo4Class at h
  split at h <;> simp_all [fourClassLabels]

theorem mkChunkResult_emotion {ts : Int} {p : PipelineResult}
    {c : ChunkResult} (h : mkChunkResult ts p = some c) :
    p.emotion = some c.emotion := by
  unfold mkChunkResult at h
  cases hp : p.emotion with
  | none => rw [hp] at h; simp at h
  | some e =>
      rw [hp] at h
      obtain rfl := Option.some.inj h
      rfl

theorem analyzeFull_emotion_allowed {m : MLOutcome} {e : String}
    (h : (analyzeFull m).emotion = some e) : e ∈ allowedEmotionLabels := by
  unfold analyzeFull at h
  by_cases hv : m.validationOk = false
  · simp only [hv, if_true] at h
    obtain rfl := Option.some.inj h.symm
    decide
  · simp only [hv, if_false] at h
    cases hs : m.serOk with
    | false => rw [hs] at h; simp at h
    | true =>
        rw [hs] at h
        simp only [if_true] at h
        exact List.mem_append.mpr (Or.inl (mapTo4Class_mem h))

theorem workerStep_emotionsIn {logE : Bool} {gap : Int} {u path : String}
    {ts : Int} {m : MLOutcome} {s : WorkerState} {e : String}
    (h : e ∈ emotionsIn
      (workerStep logE gap u path ts (analyzeFull m) s).2.tracker) :
    e ∈ emotionsIn s.tracker ∨ e ∈ allowedEmotionLabels := by
  cases hmk : mkChunkResult ts (analyzeFull m) with
  | none =>
      simp only [workerStep, processChunk, hmk, removeFile] at h
      exact Or.inl h
  | some c =>
      rcases hadd : addResult s.tracker gap u c with ⟨sid0, tr0⟩
      simp only [workerStep, processChunk, hmk, hadd, removeFile] at h
      have h2 : e ∈ emotionsIn (addResult s.tracker gap u c).2 := by
        rw [hadd]; exact h
      rcases mem_emotionsIn_addResult h2 with h3 | h3
      · exact Or.inl h3
      · refine Or.inr ?_
        rw [h3]
        exact analyzeFull_emotion_allowed (mkChunkResult_emotion hmk)

theorem runWorker_emotionsIn (logE : Bool) (gap : Int)
    (jobs : List WorkerJob) :
    ∀ (s : WorkerState) (e : String),
      e ∈ emotionsIn (runWorker logE gap jobs s).tracker →
      e ∈ emotionsIn s.tracker ∨ e ∈ allowedEmotionLabels := by
  induction jobs with
  | nil => intro s e h; exact Or.inl (by simpa [runWorker] using h)
  | cons j rest ih =>
      intro s e h
      simp only [runWorker, List.foldl_cons] at h
      have h1 := ih _ e (by simpa [runWorker] using h)
      rcases h1 with h2 | h2
      · exact workerStep_emotionsIn h2
      · exact Or.inr h2

/-! ## Helper lemma about the aggregator argmax -/

theorem aggregateSession_argmax {user : String} {sid : SessionId}
    {results : List ChunkResult} {ws we : Int} {agg : AggregatedResult}
    (h : aggregateSession user sid results ws we = some agg) :
    (agg.emotion, agg.emotion_confidence) ∈ emotionAvgConfidences results ∧
    ∀ p ∈ emotionAvgConfidences results, p.2 ≤ agg.emotion_confidence := by
  unfold aggregateSession at h
  by_cases hne : results.isEmpty = true
  · simp [hne] at h
  · have hrne : results ≠ [] := by
      cases results with
      | nil => simp at hne
      | cons a l => simp
    have hconf : emotionConfidences results ≠ [] := emotionConfidences_ne_nil hrne
    have hAvg : emotionAvgConfidences results ≠ [] := by
      unfold emotionAvgConfidences
      simpa using hconf
    obtain ⟨q, l2, hq⟩ := List.exists_cons_of_ne_nil hAvg
    rw [hq] at h
    simp only [hne, if_false, maxBySnd] at h
    obtain rfl := Option.some.inj h
    constructor
    · have hm := maxFromSnd_mem q l2
      rw [hq]
      simpa using hm
    · intro p hp
      rw [hq] at hp
      exact maxFromSnd_ge q l2 p hp

theorem aggregateSession_emotion_mem {user : String} {sid : SessionId}
    {results : List ChunkResult} {ws we : Int} {agg : AggregatedResult}
    (h : aggregateSession user sid results ws we = some agg) :
    agg.emotion ∈ results.map ChunkResult.emotion := by
  obtain ⟨hmem, _⟩ := aggregateSession_argmax h
  obtain ⟨p0, hp0, hp0e⟩ := List.mem_map.mp hmem
  have hfst : p0.1 = agg.emotion := congrArg Prod.fst hp0e
  exact hfst ▸ fst_mem_emotionConfidences hp0

/-! ## Claim theorems -/

/-- C1 (counterexample): with the queue already holding 1024 jobs — the
capacity the claim calls the bound — a further valid
`POST /ser/analyze-speech` is still answered 200 (never 503), the job is
enqueued (the queue grows to 1025) and the temp file is not unlinked.
The queue is `Queue()` — unbounded — so the claimed 503-at-capacity
behaviour does not exist in the code; the enqueue-failure branch of the
handler would moreover answer 500, not 503. -/
theorem claim_C1_counterexample :
    (analyzeSpeech true "a.wav" "u" "/tmp/x.wav" 5 fullQueueState).1.status
      = 200 ∧
    (analyzeSpeech true "a.wav" "u" "/tmp/x.wav" 5 fullQueueState).1.status
      ≠ 503 ∧
    (analyzeSpeech true "a.wav" "u" "/tmp/x.wav" 5
      fullQueueState).2.queue.length = 1025 ∧
    "/tmp/x.wav" ∈
      (analyzeSpeech true "a.wav" "u" "/tmp/x.wav" 5 fullQueueState).2.files
    := by
  have hw : endsWithWav "a.wav" = true := by decide
  have h3 : (analyzeSpeech true "a.wav" "u" "/tmp/x.wav" 5
      fullQueueState).2.queue =
      fullQueueState.queue ++ [⟨"u", "/tmp/x.wav", 5, some "a.wav"⟩] := by
    simp [analyzeSpeech, enqueueChunk, hw]
  have h5 : (analyzeSpeech true "a.wav" "u" "/tmp/x.wav" 5
      fullQueueState).2.files = fullQueueState.files ++ ["/tmp/x.wav"] := by
    simp [analyzeSpeech, enqueueChunk, hw]
  refine ⟨?_, ?_, ?_, ?_⟩
  · simp [analyzeSpeech, enqueueChunk, hw]
  · simp [analyzeSpeech, enqueueChunk, hw]
  · rw [h3, List.length_append,
      show fullQueueState.queue = List.replicate 1024 sampleJob from rfl,
      List.length_replicate, List.length_singleton]
  · rw [h5, show fullQueueState.files = [] from rfl]
    simp

/-- C1 (amended): the chunk queue is an unbounded FIFO and enqueue is
non-blocking and can never fail for capacity: every request with a valid
UUID and a `.wav` filename is answered 200 with the job appended to the
queue, whatever the queue depth; the reported queue size is the new
length.  (The enqueue-failure branch — unreachable — would answer 500,
not 503, after unlinking the temp file.) -/
theorem claim_C1_amended (s : ApiState) (filename user tmpPath : String)
    (ts : Int) (hw : endsWithWav filename = true) :
    (analyzeSpeech true filename user tmpPath ts s).1.status = 200 ∧
    (analyzeSpeech true filename user tmpPath ts s).2.queue =
      s.queue ++ [⟨user, tmpPath, ts, some filename⟩] ∧
    (analyzeSpeech true filename user tmpPath ts s).1.queue_size =
      some (s.queue.length + 1) := by
  refine ⟨?_, ?_, ?_⟩ <;> simp [analyzeSpeech, enqueueChunk, hw]

theorem claim_C1_amended_witness :
    (endsWithWav "a.wav" = true) ∧
    ((analyzeSpeech true "a.wav" "u" "/tmp/y.wav" 5 fullQueueState).1.status
        = 200 ∧
      (analyzeSpeech true "a.wav" "u" "/tmp/y.wav" 5 fullQueueState).2.queue
        = fullQueueState.queue ++ [⟨"u", "/tmp/y.wav", 5, some "a.wav"⟩] ∧
      (analyzeSpeech true "a.wav" "u" "/tmp/y.wav" 5
        fullQueueState).1.queue_size
        = some (fullQueueState.queue.length + 1)) :=
  ⟨by decide,
   claim_C1_amended fullQueueState "a.wav" "u" "/tmp/y.wav" 5 (by decide)⟩

/-- C2: for every pipeline output whose emotion maps to "drop"
(`_map_to_4class` returns None for neutral / other / unknown), the worker
inserts no row into the speech table, adds no entry to the session
tracker, no entry to the recent-results ring and none to the JSONL
result log, yet still unlinks the temp audio file.  (In the code this
happens because pydantic rejects `ChunkResult(emotion=None, ...)` and the
`except` path skips everything while `finally` unlinks.) -/
theorem claim_C2 (logE : Bool) (gap : Int) (u path : String) (ts : Int)
    (m : MLOutcome) (s : WorkerState)
    (hv : m.validationOk = true) (hd : mapTo4Class m.emotion9 = none) :
    (workerStep logE gap u path ts (analyzeFull m) s).1 = none ∧
    (workerStep logE gap u path ts (analyzeFull m) s).2.speechTable =
      s.speechTable ∧
    (workerStep logE gap u path ts (analyzeFull m) s).2.tracker =
      s.tracker ∧
    (workerStep logE gap u path ts (analyzeFull m) s).2.recentResults =
      s.recentResults ∧
    (workerStep logE gap u path ts (analyzeFull m) s).2.resultLog =
      s.resultLog ∧
    (workerStep logE gap u path ts (analyzeFull m) s).2.files =
      s.files.erase path := by
  have hmk : mkChunkResult ts (analyzeFull m) = none := by
    unfold mkChunkResult analyzeFull
    cases hs : m.serOk <;> simp [hv, hs, hd]
  refine ⟨?_, ?_, ?_, ?_, ?_, ?_⟩ <;>
    simp [workerStep, processChunk, hmk, removeFile]

theorem claim_C2_witness :
    (mNeutralOutcome.validationOk = true ∧
      mapTo4Class mNeutralOutcome.emotion9 = none) ∧
    ((workerStep true 60 "u" "/tmp/a.wav" 5 (analyzeFull mNeutralOutcome)
        sampleWorkerState).1 = none ∧
      (workerStep true 60 "u" "/tmp/a.wav" 5 (analyzeFull mNeutralOutcome)
        sampleWorkerState).2.speechTable = sampleWorkerState.speechTable ∧
      (workerStep true 60 "u" "/tmp/a.wav" 5 (analyzeFull mNeutralOutcome)
        sampleWorkerState).2.tracker = sampleWorkerState.tracker ∧
      (workerStep true 60 "u" "/tmp/a.wav" 5 (analyzeFull mNeutralOutcome)
        sampleWorkerState).2.recentResults =
          sampleWorkerState.recentResults ∧
      (workerStep true 60 "u" "/tmp/a.wav" 5 (analyzeFull mNeutralOutcome)
        sampleWorkerState).2.resultLog = sampleWorkerState.resultLog ∧
      (workerStep true 60 "u" "/tmp/a.wav" 5 (analyzeFull mNeutralOutcome)
        sampleWorkerState).2.files =
          sampleWorkerState.files.erase "/tmp/a.wav") :=
  ⟨⟨rfl, by decide⟩,
   claim_C2 true 60 "u" "/tmp/a.wav" 5 mNeutralOutcome sampleWorkerState
     rfl (by decide)⟩

/-- C3 (counterexample): a successfully processed happy chunk is appended
to the session tracker and to the recent-results ring, but NO row is
inserted into the speech table — the worker never calls
`insert_voice_emotion` (the function's only callers are the synthetic
generator and a dead api variant), so the claim's
`insertVoiceEmotion(..., synthetic=false)` call does not happen. -/
theorem claim_C3_counterexample :
    ((workerStep true 60 "u" "/tmp/a.wav" 5 (analyzeFull mHappyOutcome)
        sampleWorkerState).1).isSome = true ∧
    emotionsIn (workerStep true 60 "u" "/tmp/a.wav" 5
      (analyzeFull mHappyOutcome) sampleWorkerState).2.tracker = ["Happy"] ∧
    (workerStep true 60 "u" "/tmp/a.wav" 5 (analyzeFull mHappyOutcome)
      sampleWorkerState).2.recentResults.length = 1 ∧
    (workerStep true 60 "u" "/tmp/a.wav" 5 (analyzeFull mHappyOutcome)
      sampleWorkerState).2.speechTable = [] := by decide

/-- C3 (amended): for every successfully processed chunk whose pipeline
emotion maps to one of the four classes, the worker appends the result to
the recent-results ring (front, capped at 100) and to the session
tracker, and logs it to the JSONL file when enabled — but performs no
database insert: the speech table is untouched (`insert_voice_emotion` is
never called by the worker). -/
theorem claim_C3_amended (logE : Bool) (gap : Int) (u path : String)
    (ts : Int) (m : MLOutcome) (s : WorkerState) (e : String)
    (hv : m.validationOk = true) (hs : m.serOk = true)
    (hm : mapTo4Class m.emotion9 = some e) :
    (workerStep logE gap u path ts (analyzeFull m) s).1 =
      some (toResultDict (pipelineChunk ts m e)) ∧
    (workerStep logE gap u path ts (analyzeFull m) s).2.tracker =
      (addResult s.tracker gap u (pipelineChunk ts m e)).2 ∧
    (workerStep logE gap u path ts (analyzeFull m) s).2.recentResults =
      (RecentResult.mk u ts (toResultDict (pipelineChunk ts m e)) ::
        s.recentResults).take MAX_RECENT_RESULTS ∧
    (workerStep logE gap u path ts (analyzeFull m) s).2.speechTable =
      s.speechTable := by
  have hmk : mkChunkResult ts (analyzeFull m) =
      some (pipelineChunk ts m e) := by
    unfold mkChunkResult analyzeFull pipelineChunk
    simp [hv, hs, hm]
  rcases hadd : addResult s.tracker gap u (pipelineChunk ts m e)
    with ⟨sid0, tr0⟩
  refine ⟨?_, ?_, ?_, ?_⟩ <;>
    simp [workerStep, processChunk, hmk, hadd, removeFile]

theorem claim_C3_amended_witness :
    (mHappyOutcome.validationOk = true ∧ mHappyOutcome.serOk = true ∧
      mapTo4Class mHappyOutcome.emotion9 = some "Happy") ∧
    ((workerStep true 60 "u" "/tmp/a.wav" 5 (analyzeFull mHappyOutcome)
        sampleWorkerState).1 =
      some (toResultDict (pipelineChunk 5 mHappyOutcome "Happy")) ∧
    (workerStep true 60 "u" "/tmp/a.wav" 5 (analyzeFull mHappyOutcome)
        sampleWorkerState).2.tracker =
      (addResult sampleWorkerState.tracker 60 "u"
        (pipelineChunk 5 mHappyOutcome "Happy")).2 ∧
    (workerStep true 60 "u" "/tmp/a.wav" 5 (analyzeFull mHappyOutcome)
        sampleWorkerState).2.recentResults =
      (RecentResult.mk "u" 5
        (toResultDict (pipelineChunk 5 mHappyOutcome "Happy")) ::
        sampleWorkerState.recentResults).take MAX_RECENT_RESULTS ∧
    (workerStep true 60 "u" "/tmp/a.wav" 5 (analyzeFull mHappyOutcome)
        sampleWorkerState).2.speechTable =
      sampleWorkerState.speechTable) :=
  ⟨⟨rfl, rfl, by decide⟩,
   claim_C3_amended true 60 "u" "/tmp/a.wav" 5 mHappyOutcome
     sampleWorkerState "Happy" rfl rfl (by decide)⟩

/-- C4 (counterexample): a chunk that fails `validate_audio` produces the
pipeline emotion string `"Error"`, which the worker stores in the session
tracker as a `ChunkResult` — so tracker entries with emotion outside
{Angry, Sad, Happy, Fear} (explicitly including "Error") do occur, and an
aggregate over such a session emits emotion "Error" as well. -/
theorem claim_C4_counterexample :
    emotionsIn (runWorker true 60 [badJob] {}).tracker = ["Error"] ∧
    "Error" ∉ fourClassLabels ∧
    (aggregateSession "u" ("u", 5) [errorChunk] 0 300).map
      (fun a => a.emotion) = some "Error" := by decide

/-- C4 (amended): in every worker run the emotions stored in the session
tracker lie in {Angry, Sad, Happy, Fear, Error} — the four classes plus
the `"Error"` marker from failed audio validation; a `None` emotion never
occurs (pydantic rejects it).  Every aggregate emitted over results drawn
from that set carries an emotion in the same set. -/
theorem claim_C4_amended :
    (∀ (logE : Bool) (gap : Int) (jobs : List WorkerJob) (e : String),
      e ∈ emotionsIn (runWorker logE gap jobs {}).tracker →
      e ∈ allowedEmotionLabels) ∧
    (∀ (user : String) (sid : SessionId) (results : List ChunkResult)
      (ws we : Int) (agg : AggregatedResult),
      (∀ r ∈ results, r.emotion ∈ allowedEmotionLabels) →
      aggregateSession user sid results ws we = some agg →
      agg.emotion ∈ allowedEmotionLabels) := by
  constructor
  · intro logE gap jobs e h
    rcases runWorker_emotionsIn logE gap jobs {} e h with h1 | h1
    · simp [emotionsIn] at h1
    · exact h1
  · intro user sid results ws we agg hall h
    obtain ⟨r0, hr0, hre⟩ := List.mem_map.mp (aggregateSession_emotion_mem h)
    exact hre ▸ hall r0 hr0

theorem claim_C4_amended_witness :
    "Error" ∈ allowedEmotionLabels ∧
    errAggregate.emotion ∈ allowedEmotionLabels :=
  ⟨claim_C4_amended.1 true 60 [badJob] "Error" (by decide),
   claim_C4_amended.2 "u" ("u", 5) [errorChunk] 0 300 errAggregate
     (by decide) rfl⟩

/-- C5 (code evaluation): `startup_event` in `app/main.py` starts the
queue worker thread and then the synthetic-generator task — and nothing
else.  The aggregator periodic task is never started (no call to
`Aggregator.start_periodic_aggregation` or even `Aggregator.get_instance`
exists in the repository), contradicting the claimed worker → aggregator
→ generator startup order. -/
theorem claim_C5_startup_divergence :
    serStartupActions =
      [StartupAction.startWorkerThread, StartupAction.startGeneratorTask] ∧
    StartupAction.startAggregatorTask ∉ serStartupActions := by decide

/-- C6: for every non-empty set of ChunkResults aggregated for one
(user, session, window), the emitted AggregatedResult's emotion is a
label whose per-label mean confidence is recorded as the emitted
confidence, and that confidence is the greatest of the per-label mean
confidences (python's `max(d.items(), key=...)`; ties go to the first
label in dict order). -/
theorem claim_C6 (user : String) (sid : SessionId)
    (results : List ChunkResult) (ws we : Int) (agg : AggregatedResult)
    (h : aggregateSession user sid results ws we = some agg) :
    (agg.emotion, agg.emotion_confidence) ∈ emotionAvgConfidences results ∧
    ∀ p ∈ emotionAvgConfidences results, p.2 ≤ agg.emotion_confidence :=
  aggregateSession_argmax h

theorem claim_C6_witness :
    ((errAggregate.emotion, errAggregate.emotion_confidence) ∈
      emotionAvgConfidences [errorChunk] ∧
    ∀ p ∈ emotionAvgConfidences [errorChunk],
      p.2 ≤ errAggregate.emotion_confidence) :=
  claim_C6 "u" ("u", 5) [errorChunk] 0 300 errAggregate rfl

/-- C7 (counterexample): with one session whose last chunk arrived at
t = 100 (gap threshold 60), a result with timestamp 0 is assigned to that
same session although `|0 − 100| = 100 > 60`: the code compares the
SIGNED difference `timestamp − last_chunk` against the threshold, so an
out-of-order result whose absolute gap exceeds the threshold still
reuses the most recent session, refuting the claimed iff. -/
theorem claim_C7_counterexample :
    (addResult (addResult ([] : Tracker) 60 "u" (chunkAt 100)).2 60 "u"
        (chunkAt 0)).1 =
      (addResult ([] : Tracker) 60 "u" (chunkAt 100)).1 ∧
    ¬ (|(0 : Int) - 100| ≤ 60) := by decide

/-- C7 (amended): when a user has at least one session, a new result at
time `t` creates a fresh session exactly when the SIGNED gap
`t − last_chunk` of the most recent session (greatest last-chunk time)
exceeds the threshold, and otherwise reuses that session; a gap exactly
equal to the threshold reuses the existing session. -/
theorem claim_C7_amended (us : UserSessions) (user : String)
    (t thr : Int) (sid : SessionId) (mr : Int)
    (h1 : us.sessions.isEmpty = false)
    (h2 : mostRecentSession us.metadata = some (sid, mr)) :
    detectOrCreateSession us user t thr =
      if t - mr > thr then (user, t) else sid := by
  simp [detectOrCreateSession, h1, h2]

theorem claim_C7_amended_witness :
    (usOneSession.sessions.isEmpty = false ∧
      mostRecentSession usOneSession.metadata = some (("u", 100), 100)) ∧
    detectOrCreateSession usOneSession "u" 0 60 =
      if (0 : Int) - 100 > 60 then ("u", 0) else ("u", 100) :=
  ⟨⟨rfl, rfl⟩, claim_C7_amended usOneSession "u" 0 60 ("u", 100) 100 rfl rfl⟩

/-- C8 (counterexample): after results at t = 100 and then t = 50 (out of
order) the session's last-chunk time is 50, not max(100, 50) = 100:
`add_result` overwrites `last_chunk_time` with the new result's timestamp
unconditionally. -/
theorem claim_C8_counterexample :
    lastChunkTime
      (addResult (addResult ([] : Tracker) 60 "u" (chunkAt 100)).2 60 "u"
        (chunkAt 50)).2 "u"
      (addResult (addResult ([] : Tracker) 60 "u" (chunkAt 100)).2 60 "u"
        (chunkAt 50)).1 = some 50 ∧
    (50 : Int) ≠ max 100 50 := by decide

/-- C8 (amended): `addResult` accepts out-of-order results, and after any
`addResult` the chosen session's last-chunk time equals the NEW result's
timestamp (an unconditional overwrite — not the max of old and new). -/
theorem claim_C8_amended (t : Tracker) (gap : Int) (u : String)
    (r : ChunkResult) :
    lastChunkTime (addResult t gap u r).2 u (addResult t gap u r).1 =
      some r.timestamp := by
  cases hlk : alookup (trackerGet t u).sessions
      (detectOrCreateSession (trackerGet t u) u r.timestamp gap) with
  | some vs =>
      simp only [addResult, hlk]
      simp [lastChunkTime, trackerGet, alookup_aset_self]
  | none =>
      simp only [addResult, hlk]
      simp [lastChunkTime, trackerGet, alookup_aset_self]

/-- C9: one tick of the synthetic generator loop performs zero store
inserts when demo mode is off; zero when demo mode is on but every
modality is disabled; and exactly one insert, into that modality's
table, when demo mode is on and exactly one modality is enabled. -/
theorem claim_C9 (en : Modality → Bool) (user : String) (now : Int)
    (draw : Modality → Nat → SignalDraw) (m : Modality) :
    autoGenerationTick false en user now draw = [] ∧
    ((∀ x, en x = false) → autoGenerationTick true en user now draw = []) ∧
    ((∀ x, en x = true ↔ x = m) →
      (autoGenerationTick true en user now draw).length = 1 ∧
      ∀ ins ∈ autoGenerationTick true en user now draw,
        ins.table = tableOf m) := by
  refine ⟨rfl, ?_, ?_⟩
  · intro h
    simp [autoGenerationTick, modalityList, h Modality.ser, h Modality.fer,
      h Modality.vitals]
  · intro h
    have hser := h Modality.ser
    have hfer := h Modality.fer
    have hvit := h Modality.vitals
    cases m with
    | ser =>
        have e1 : en Modality.ser = true := hser.mpr rfl
        have e2 : en Modality.fer = false := by
          cases he : en Modality.fer
          · rfl
          · exact absurd (hfer.mp he) (by decide)
        have e3 : en Modality.vitals = false := by
          cases he : en Modality.vitals
          · rfl
          · exact absurd (hvit.mp he) (by decide)
        constructor <;>
          simp [autoGenerationTick, modalityList, e1, e2, e3,
            generateAndSendSignals, writeSignalsLocally,
            generateRandomSignals, List.range_succ]
    | fer =>
        have e1 : en Modality.fer = true := hfer.mpr rfl
        have e2 : en Modality.ser = false := by
          cases he : en Modality.ser
          · rfl
          · exact absurd (hser.mp he) (by decide)
        have e3 : en Modality.vitals = false := by
          cases he : en Modality.vitals
          · rfl
          · exact absurd (hvit.mp he) (by decide)
        constructor <;>
          simp [autoGenerationTick, modalityList, e1, e2, e3,
            generateAndSendSignals, writeSignalsLocally,
            generateRandomSignals, List.range_succ]
    | vitals =>
        have e1 : en Modality.vitals = true := hvit.mpr rfl
        have e2 : en Modality.ser = false := by
          cases he : en Modality.ser
          · rfl
          · exact absurd (hser.mp he) (by decide)
        have e3 : en Modality.fer = false := by
          cases he : en Modality.fer
          · rfl
          · exact absurd (hfer.mp he) (by decide)
        constructor <;>
          simp [autoGenerationTick, modalityList, e1, e2, e3,
            generateAndSendSignals, writeSignalsLocally,
            generateRandomSignals, List.range_succ]

theorem claim_C9_witness :
    autoGenerationTick false enFerOnly "u" 7 constDraw = [] ∧
    autoGenerationTick true (fun _ => false) "u" 7 constDraw = [] ∧
    ((autoGenerationTick true enFerOnly "u" 7 constDraw).length = 1 ∧
      ∀ ins ∈ autoGenerationTick true enFerOnly "u" 7 constDraw,
        ins.table = tableOf Modality.fer) :=
  ⟨(claim_C9 enFerOnly "u" 7 constDraw Modality.fer).1,
   (claim_C9 (fun _ => false) "u" 7 constDraw Modality.fer).2.1
     (fun _ => rfl),
   (claim_C9 enFerOnly "u" 7 constDraw Modality.fer).2.2
     (by intro x; cases x <;> simp [enFerOnly])⟩

/-- C10: for every limit and user filter, both result-log reads apply the
user filter BEFORE truncating to the limit: they return exactly the first
`limit` of that user's entries in newest-first order (so the returned
count is `min limit (number of the user's entries)`), not the user's
entries among the globally newest `limit`. -/
theorem claim_C10 (aentries : List AggregatedLogEntry)
    (ientries : List IndividualLogEntry) (limit : Nat) (u : String) :
    readAggregatedResults aentries limit (some u) =
      ((aentries.filter
        (fun (e : AggregatedLogEntry) => e.user_id == u)).reverse).take
        limit ∧
    (readAggregatedResults aentries limit (some u)).length =
      min limit
        (aentries.filter
          (fun (e : AggregatedLogEntry) => e.user_id == u)).length ∧
    readIndividualResults ientries limit (some u) =
      ((ientries.filter
        (fun (e : IndividualLogEntry) => e.user_id == u)).reverse).take
        limit ∧
    (readIndividualResults ientries limit (some u)).length =
      min limit
        (ientries.filter
          (fun (e : IndividualLogEntry) => e.user_id == u)).length := by
  refine ⟨?_, ?_, ?_, ?_⟩ <;>
    simp [readAggregatedResults, readIndividualResults,
      List.filter_reverse, List.length_take, List.length_reverse]

end SER
